import Mathlib

/-!
Verification development for the asynchronous message pipeline of the
aigfv5 backend: shallow embedding of the ingestion handler
(simpleMessageHandler.js), the hot-store cache layer (cacheService.js),
the durable-store adapter (firebaseService.js), the job queue
configuration (messageQueue.js) and the batch persistence worker
(messageWorker.js / batch write worker), together with theorems about
the behaviour those sources exhibit.

Modelling conventions: JavaScript numbers used as millisecond
timestamps become Nat; JSON serialisation round-trips are treated as
the identity, so Redis lists of serialised messages are lists of
messages; Redis and Firestore operations are total (the store backends
are available) unless a claim is about their failure, in which case the
failing call is a Boolean or oracle parameter; the per-key Redis
structures are functions from conversation id, and the write_queue
sorted set is an association list of member/score pairs.
-/

namespace Aigf

/-- A chat message as constructed by the handler and the worker. -/
structure Message where
  id : String
  sender : String
  type : String
  content : String
  timestamp : Nat
  conversationId : String
deriving Repr, DecidableEq

/-- Conversation metadata hash written by queueMessagesForBatchWrite
(conversation_meta:conversationId). -/
structure ConvMeta where
  userId : String
  characterId : String
  createdAt : Nat
deriving Repr, DecidableEq

/-- The per-conversation Firestore document written by saveConversation. -/
structure ConversationDoc where
  userId : String
  characterId : String
  createdAt : Nat
  updatedAt : Nat
  lastMessage : String
  messageCount : Nat
  messages : List Message
deriving Repr, DecidableEq

/-- A dead-letter record as pushed to dlq:failed_writes by
handleFailedWrite.  metadata is the hGetAll result (none when the
conversation_meta hash is absent). -/
structure DeadLetterEntry where
  conversationId : String
  messages : List Message
  metadata : Option ConvMeta
  failedAt : Nat
  error : String
deriving Repr, DecidableEq

/-- The callback payload of the message:send handler. -/
structure Ack where
  success : Bool
  error : Option String
  message : Option Message
deriving Repr, DecidableEq

/-- BullMQ job payload {conversationId, characterId, userMessage, userId}. -/
structure JobData where
  conversationId : String
  characterId : String
  userMessage : Message
  userId : String
deriving Repr, DecidableEq

/-- config.batchWrite.delaySeconds default (environment.js). -/
def delaySeconds : Nat := 120

/-- config.batchWrite.pollIntervalSeconds default (environment.js). -/
def pollIntervalSeconds : Nat := 30

/-- config.batchWrite.maxMessagesPerBatch default (environment.js). -/
def maxMessagesPerBatch : Nat := 500

/-- config.batchWrite.retryAttempts default (environment.js). -/
def retryAttempts : Nat := 3

/-- defaultJobOptions of the message-processing queue (messageQueue.js). -/
structure JobOptions where
  removeOnComplete : Nat
  removeOnFail : Nat
  attempts : Nat
  backoffType : String
  backoffDelayMs : Nat
deriving Repr, DecidableEq

/-- messageQueue.js: attempts 3, backoff exponential with base delay 2000ms. -/
def defaultJobOptions : JobOptions :=
  { removeOnComplete := 10, removeOnFail := 5, attempts := 3,
    backoffType := "exponential", backoffDelayMs := 2000 }

/-- Firestore FieldValue.arrayUnion: appends each given element that is
not already present (deep equality), in argument order, never
duplicating elements that occur twice among the arguments. -/
def arrayUnion (existing news : List Message) : List Message :=
  news.foldl (fun acc m => if m ∈ acc then acc else acc ++ [m]) existing

/-- The lastMessage fallback in saveConversation: the content of the
last message, or the literal string Message when the list is empty. -/
def lastContent (messages : List Message) : String :=
  match messages.getLast? with
  | some m => m.content
  | none => "Message"

/-- The document produced by one saveConversation call
(firebaseService.js lines 298-373): merge-set of userId, characterId,
updatedAt, lastMessage, messageCount increment and messages arrayUnion;
createdAt only on a new document. -/
def applySave (doc : Option ConversationDoc) (uid chid : String)
    (messages : List Message) (now : Nat) : ConversationDoc :=
  match doc with
  | none =>
      { userId := uid, characterId := chid, createdAt := now, updatedAt := now,
        lastMessage := lastContent messages,
        messageCount := messages.length,
        messages := arrayUnion [] messages }
  | some d =>
      { userId := uid, characterId := chid, createdAt := d.createdAt,
        updatedAt := now,
        lastMessage := lastContent messages,
        messageCount := d.messageCount + messages.length,
        messages := arrayUnion d.messages messages }

/-- Combined system state: hot store lists (head is the most recently
pushed message), durable store documents, batch-write pending lists and
metadata, the write_queue sorted set, the dead-letter list, plus the
observable outputs (broadcast events, handler callbacks, enqueued jobs,
truncation-warning count). -/
structure SysState where
  cache : String → List Message
  durable : String → Option ConversationDoc
  pending : String → List Message
  meta : String → Option ConvMeta
  writeQueue : List (String × Nat)
  dlq : List DeadLetterEntry
  broadcasts : List Message
  acks : List Ack
  jobs : List JobData
  warnings : Nat

/-- Empty initial state. -/
def initState : SysState :=
  { cache := fun _ => [], durable := fun _ => none, pending := fun _ => [],
    meta := fun _ => none, writeQueue := [], dlq := [], broadcasts := [],
    acks := [], jobs := [], warnings := 0 }

/-- cacheService.pushMessage success effect: redis.lPush of the
serialised message onto aim:messages:conversationId (new head). -/
def pushMessageOp (s : SysState) (cid : String) (m : Message) : SysState :=
  { s with cache := fun c => if c = cid then m :: s.cache c else s.cache c }

/-- cacheService.clearMessages: redis.del of the message list. -/
def clearMessagesOp (s : SysState) (cid : String) : SysState :=
  { s with cache := fun c => if c = cid then [] else s.cache c }

/-- cacheService.getMessages: lRange(key, 0, limit - 1) then parse and
reverse.  With limit = 0 the Redis stop index is -1, which denotes the
last element, so the whole list is returned. -/
def cacheGetMessages (l : List Message) (limit : Nat) : List Message :=
  if limit = 0 then l.reverse else (l.take limit).reverse

/-- JavaScript array slice(-n) for n > 0: the last n elements.  With
n = 0 the whole array is returned. -/
def sliceNeg (l : List Message) (n : Nat) : List Message :=
  if n = 0 then l else l.drop (l.length - n)

/-- The sort in firebaseService.getMessages:
sort((a, b) => a.timestamp - b.timestamp), an ascending stable sort. -/
def sortByTimestamp (l : List Message) : List Message :=
  l.insertionSort (fun a b => a.timestamp ≤ b.timestamp)

/-- firebaseService.getMessages: cache-first read; on a cache miss the
conversation document is read, its messages array is sorted by
timestamp and cut to the last limit entries, and the cache is
repopulated by lPush of each returned message in order.  Returns the
messages together with the successor state. -/
def getMessagesF (s : SysState) (cid : String) (limit : Nat) :
    List Message × SysState :=
  let cached := cacheGetMessages (s.cache cid) limit
  if cached.length > 0 then (cached, s)
  else
    match s.durable cid with
    | none => ([], s)
    | some doc =>
        let ordered := sliceNeg (sortByTimestamp doc.messages) limit
        (ordered,
         { s with cache := fun c =>
             if c = cid then ordered.foldl (fun acc m => m :: acc) (s.cache c)
             else s.cache c })

/-- The message:send handler (simpleMessageHandler.js lines 20-90).
Validation failure and the catch branch acknowledge with success false;
otherwise the user message is pushed to the hot store, broadcast,
acknowledged with success true, and a generation job is enqueued.
pushFails injects a cacheService.pushMessage rejection, which the
handler catch turns into the failure acknowledgment. -/
def handleMessageSend (s : SysState) (userId characterId content mtype msgId : String)
    (now : Nat) (pushFails : Bool) : SysState :=
  if characterId = "" ∨ content = "" then
    { s with acks := s.acks ++
        [{ success := false, error := some "Missing required fields", message := none }] }
  else
    let conversationId := userId ++ "_" ++ characterId
    let userMessage : Message :=
      { id := msgId, sender := "user", type := mtype, content := content,
        timestamp := now, conversationId := conversationId }
    if pushFails then
      { s with acks := s.acks ++
          [{ success := false, error := some "Failed to process message", message := none }] }
    else
      let s1 := pushMessageOp s conversationId userMessage
      { s1 with
        broadcasts := s1.broadcasts ++ [userMessage],
        acks := s1.acks ++
          [{ success := true, error := none, message := some userMessage }],
        jobs := s1.jobs ++
          [{ conversationId := conversationId, characterId := characterId,
             userMessage := userMessage, userId := userId }] }

/-- Redis zAdd on the write_queue sorted set: update the score of an
existing member, otherwise insert the member. -/
def zAdd : List (String × Nat) → String → Nat → List (String × Nat)
  | [], member, score => [(member, score)]
  | p :: rest, member, score =>
      if p.1 = member then (member, score) :: rest
      else p :: zAdd rest member score

/-- Redis zRem: remove a member from the sorted set. -/
def zRem (q : List (String × Nat)) (member : String) : List (String × Nat) :=
  q.filter (fun p => p.1 ≠ member)

/-- Number of entries a member has in the sorted set. -/
def entryCount (q : List (String × Nat)) (member : String) : Nat :=
  (q.filter (fun p => p.1 = member)).length

/-- Score of a member in the sorted set. -/
def scoreOf (q : List (String × Nat)) (member : String) : Option Nat :=
  (q.find? (fun p => p.1 = member)).map (fun p => p.2)

/-- saveConversation as a state update of the durable store. -/
def saveConversationOp (s : SysState) (cid uid chid : String)
    (messages : List Message) (now : Nat) : SysState :=
  { s with durable := fun c =>
      if c = cid then some (applySave (s.durable c) uid chid messages now)
      else s.durable c }

/-- queueMessagesForBatchWrite (messageWorker.js lines 198-240): one
Redis transaction that rPushes the messages onto the pending list,
hSets the metadata hash and zAdds the conversation into write_queue
with score now + delaySeconds * 1000.  When the transaction fails
(multiOk = false) nothing of it is applied and the worker falls back to
an immediate saveConversation. -/
def queueMessagesForBatchWrite (s : SysState) (cid uid chid : String)
    (messages : List Message) (now : Nat) (multiOk : Bool) : SysState :=
  if multiOk then
    { s with
      pending := fun c => if c = cid then s.pending c ++ messages else s.pending c,
      meta := fun c =>
        if c = cid then some { userId := uid, characterId := chid, createdAt := now }
        else s.meta c,
      writeQueue := zAdd s.writeQueue cid (now + delaySeconds * 1000) }
  else
    saveConversationOp s cid uid chid messages now

/-- cleanupConversationKeys (messageWorker.js lines 570-578): delete
the pending list and the metadata hash of one conversation. -/
def cleanupConversationKeys (s : SysState) (cid : String) : SysState :=
  { s with
    pending := fun c => if c = cid then [] else s.pending c,
    meta := fun c => if c = cid then none else s.meta c }

/-- handleFailedWrite (messageWorker.js lines 581-611): read the still
pending messages and metadata, rPush one dead-letter record
{conversationId, messages, metadata, failedAt, error} onto the DLQ
list, then clean up the pending keys. -/
def handleFailedWrite (s : SysState) (cid : String) (now : Nat) (err : String) :
    SysState :=
  let entry : DeadLetterEntry :=
    { conversationId := cid, messages := s.pending cid, metadata := s.meta cid,
      failedAt := now, error := err }
  cleanupConversationKeys { s with dlq := s.dlq ++ [entry] } cid

/-- Index of the first successful attempt among budget attempts
starting at start, where the oracle says whether attempt i succeeds. -/
def firstSuccessAux (oracle : Nat → Bool) : Nat → Nat → Option Nat
  | _, 0 => none
  | start, budget + 1 =>
      if oracle start then some start
      else firstSuccessAux oracle (start + 1) budget

/-- The retry helper of messageWorker.js (lines 614-631): the loop runs
attempts i = 0 .. retries inclusive and stops at the first success. -/
def retrySucceedsAt (oracle : Nat → Bool) (retries : Nat) : Option Nat :=
  firstSuccessAux oracle 0 (retries + 1)

/-- Metadata fields observed through hGetAll: absent hash fields read
as undefined in the source. -/
def metaOrUndefined (m : Option ConvMeta) : ConvMeta :=
  match m with
  | some v => v
  | none => { userId := "undefined", characterId := "undefined", createdAt := 0 }

/-- writeConversationBatch (messageWorker.js lines 519-567): read the
pending batch; when empty just clean up; otherwise truncate to the last
maxMessagesPerBatch messages with a logged warning when over the cap,
attempt saveConversation through the retry helper (the oracle says
which attempt succeeds), clean up on success and route to the DLQ on
exhaustion.  The function itself never throws. -/
def writeConversationBatch (s : SysState) (cid : String) (now : Nat)
    (oracle : Nat → Bool) : SysState :=
  let messages := s.pending cid
  if messages.length = 0 then
    cleanupConversationKeys s cid
  else
    let overCap := decide (messages.length > maxMessagesPerBatch)
    let messagesToWrite :=
      if overCap then sliceNeg messages maxMessagesPerBatch else messages
    let s1 := if overCap then { s with warnings := s.warnings + 1 } else s
    match retrySucceedsAt oracle retryAttempts with
    | some _ =>
        let md := metaOrUndefined (s1.meta cid)
        cleanupConversationKeys
          (saveConversationOp s1 cid md.userId md.characterId messagesToWrite now) cid
    | none => handleFailedWrite s1 cid now "write failed"

/-- The per-conversation body of processWriteQueue (messageWorker.js
lines 486-503): run writeConversationBatch and, since it resolved,
zRem the conversation from write_queue. -/
def processDueConversation (s : SysState) (cid : String) (now : Nat)
    (oracle : Nat → Bool) : SysState :=
  let s1 := writeConversationBatch s cid now oracle
  { s1 with writeQueue := zRem s1.writeQueue cid }

/-- The system error message built in the catch branch of
processMessage (messageWorker.js lines 174-195). -/
def errorMessage (cid : String) (now : Nat) : Message :=
  { id := "error_" ++ toString now, sender := "system", type := "error",
    content := "Sorry, I encountered an error while processing your message. Please try again.",
    timestamp := now, conversationId := cid }

/-- The catch branch of processMessage: broadcast the system error
message to the conversation room and rethrow. -/
def emitError (s : SysState) (cid : String) (now : Nat) : SysState :=
  { s with broadcasts := s.broadcasts ++ [errorMessage cid now] }

/-- processMessage (messageWorker.js lines 59-196): fetch the character
(charFound), read the recent history cache-first (a state effect via
cache repopulation), invoke the generator (genResult, none meaning
failure), build the response message with a timestamp taken after
generation (now), push it to the hot store, broadcast it, and either
queue both messages for the delayed batch write (batchEnabled, with the
multiOk transaction flag and its immediate-write fallback) or save them
to the durable store immediately.  Any failure lands in the catch
branch, which broadcasts a system error message and rethrows, making
the returned Bool false. -/
def processMessage (s : SysState) (job : JobData) (now : Nat) (aiMsgId : String)
    (charFound : Bool) (genResult : Option String)
    (batchEnabled multiOk : Bool) : SysState × Bool :=
  if charFound = false then (emitError s job.conversationId now, false)
  else
    let s1 := (getMessagesF s job.conversationId 20).2
    match genResult with
    | none => (emitError s1 job.conversationId now, false)
    | some text =>
        let aiMessage : Message :=
          { id := aiMsgId, sender := "character", type := "text", content := text,
            timestamp := now, conversationId := job.conversationId }
        let s2 := pushMessageOp s1 job.conversationId aiMessage
        let s3 := { s2 with broadcasts := s2.broadcasts ++ [aiMessage] }
        let s4 :=
          if batchEnabled then
            queueMessagesForBatchWrite s3 job.conversationId job.userId
              job.characterId [job.userMessage, aiMessage] now multiOk
          else
            saveConversationOp s3 job.conversationId job.userId job.characterId
              [job.userMessage, aiMessage] now
        (s4, true)

/-- The BullMQ retry driver for one job under defaultJobOptions: run
processMessage until it succeeds or the attempt budget is exhausted;
returns the final state, whether the job succeeded, and the number of
executions.  gen and times give the generator outcome and the clock of
each attempt. -/
def runJobAux (job : JobData) (charFound : Bool) (gen : Nat → Option String)
    (times : Nat → Nat) (aiMsgId : String) (batchEnabled multiOk : Bool) :
    SysState → Nat → Nat → SysState × Bool × Nat
  | s, attemptIdx, 0 => (s, false, attemptIdx)
  | s, attemptIdx, budget + 1 =>
      let r := processMessage s job (times attemptIdx) aiMsgId charFound
        (gen attemptIdx) batchEnabled multiOk
      if r.2 then (r.1, true, attemptIdx + 1)
      else if budget = 0 then (r.1, false, attemptIdx + 1)
      else runJobAux job charFound gen times aiMsgId batchEnabled multiOk
        r.1 (attemptIdx + 1) budget

/-- One job processed by the queue with defaultJobOptions.attempts. -/
def runJob (s : SysState) (job : JobData) (charFound : Bool)
    (gen : Nat → Option String) (times : Nat → Nat) (aiMsgId : String)
    (batchEnabled multiOk : Bool) : SysState × Bool × Nat :=
  runJobAux job charFound gen times aiMsgId batchEnabled multiOk s 0
    defaultJobOptions.attempts

/-- The backoff delays BullMQ inserts between the attempts of a job
with exponential backoff: delay * 2 ^ i before retry i + 1. -/
def backoffSchedule (opts : JobOptions) : List Nat :=
  (List.range (opts.attempts - 1)).map (fun i => opts.backoffDelayMs * 2 ^ i)

/-- One full exchange through the pipeline: the handler ingests the
user message at t1 (hot-store push succeeds), the worker processes the
enqueued job at t2 with a successful generation and queues both
messages for the delayed batch write, and the batch persistence worker
flushes the conversation at t3 with the given write oracle. -/
def runPipeline (s : SysState) (userId characterId content userMsgId aiMsgId aiText : String)
    (t1 t2 t3 : Nat) (oracle : Nat → Bool) : SysState :=
  let cid := userId ++ "_" ++ characterId
  let s1 := handleMessageSend s userId characterId content "text" userMsgId t1 false
  let userMessage : Message :=
    { id := userMsgId, sender := "user", type := "text", content := content,
      timestamp := t1, conversationId := cid }
  let job : JobData :=
    { conversationId := cid, characterId := characterId,
      userMessage := userMessage, userId := userId }
  let s2 := (processMessage s1 job t2 aiMsgId true (some aiText) true true).1
  processDueConversation s2 cid t3 oracle

/-- Sample message used in concrete counterexamples and witnesses. -/
def m0 : Message :=
  { id := "m0", sender := "user", type := "text", content := "hello",
    timestamp := 10, conversationId := "u_c" }

/-- The messages array of an optional conversation document
(messages || [] in the source). -/
def docMessages (doc : Option ConversationDoc) : List Message :=
  match doc with
  | none => []
  | some d => d.messages

/-- The user message as constructed by the message:send handler for a
text message at time t1. -/
def pipelineUserMsg (userId characterId content userMsgId : String) (t1 : Nat) : Message :=
  { id := userMsgId, sender := "user", type := "text", content := content,
    timestamp := t1, conversationId := userId ++ "_" ++ characterId }

/-- The response message as constructed by processMessage after
generation completes at time t2. -/
def pipelineAiMsg (userId characterId aiText aiMsgId : String) (t2 : Nat) : Message :=
  { id := aiMsgId, sender := "character", type := "text", content := aiText,
    timestamp := t2, conversationId := userId ++ "_" ++ characterId }

/-- A message pushed first with timestamp 5: with m83 pushed after it,
the cached list is out of timestamp order. -/
def m81 : Message :=
  { id := "m81", sender := "user", type := "text", content := "later",
    timestamp := 5, conversationId := "u_c" }

/-- A message pushed second with the smaller timestamp 3. -/
def m83 : Message :=
  { id := "m83", sender := "character", type := "text", content := "earlier",
    timestamp := 3, conversationId := "u_c" }

/-- A list of 501 pairwise distinct pending messages, one over the
batch cap. -/
def msgs501 : List Message :=
  (List.range 501).map (fun i =>
    { id := "m", sender := "user", type := "text", content := "x",
      timestamp := i, conversationId := "c5" })

/-- State whose c5 conversation has 501 pending messages. -/
def s501 : SysState :=
  { initState with pending := fun c => if c = "c5" then msgs501 else [] }

/-- Concrete metadata record for witnesses. -/
def metaW : ConvMeta := { userId := "u", characterId := "c", createdAt := 1 }

/-- State with one pending message, metadata and a due schedule entry
for conversation u_c. -/
def sC3 : SysState :=
  { initState with
    pending := fun c => if c = "u_c" then [m0] else [],
    meta := fun c => if c = "u_c" then some metaW else none,
    writeQueue := [("u_c", 5)] }

/-- State whose write queue already holds an entry for u_c with an
earlier due time 50. -/
def sC4 : SysState := { initState with writeQueue := [("u_c", 50)] }

/- ------------------------------------------------------------------
Helper lemmas about arrayUnion.
------------------------------------------------------------------ -/

theorem mem_arrayUnion_left {x : Message} :
    ∀ (news acc : List Message), x ∈ acc → x ∈ arrayUnion acc news := by
  intro news
  induction news with
  | nil => intro acc h; simpa [arrayUnion] using h
  | cons m rest ih =>
      intro acc h
      show x ∈ arrayUnion (if m ∈ acc then acc else acc ++ [m]) rest
      apply ih
      by_cases hm : m ∈ acc
      · simpa [hm] using h
      · simp [hm]
        exact Or.inl h

theorem mem_arrayUnion_right {x : Message} :
    ∀ (news acc : List Message), x ∈ news → x ∈ arrayUnion acc news := by
  intro news
  induction news with
  | nil => intro acc h; simp at h
  | cons m rest ih =>
      intro acc h
      show x ∈ arrayUnion (if m ∈ acc then acc else acc ++ [m]) rest
      rcases List.mem_cons.mp h with h | h
      · subst h
        apply mem_arrayUnion_left
        by_cases hm : x ∈ acc
        · simp [hm]
        · simp [hm]
      · exact ih _ h

theorem arrayUnion_eq_of_subset :
    ∀ (news acc : List Message), (∀ m ∈ news, m ∈ acc) → arrayUnion acc news = acc := by
  intro news
  induction news with
  | nil => intro acc _; rfl
  | cons m rest ih =>
      intro acc h
      have hm : m ∈ acc := h m (List.mem_cons_self m rest)
      show arrayUnion (if m ∈ acc then acc else acc ++ [m]) rest = acc
      rw [if_pos hm]
      exact ih acc (fun x hx => h x (List.mem_cons_of_mem m hx))

theorem arrayUnion_append_of_disjoint :
    ∀ (news acc : List Message), (∀ m ∈ news, m ∉ acc) → news.Nodup →
      arrayUnion acc news = acc ++ news := by
  intro news
  induction news with
  | nil => intro acc _ _; simp [arrayUnion]
  | cons m rest ih =>
      intro acc h hnd
      have hm : m ∉ acc := h m (List.mem_cons_self m rest)
      show arrayUnion (if m ∈ acc then acc else acc ++ [m]) rest = acc ++ m :: rest
      rw [if_neg hm]
      rw [ih (acc ++ [m]) ?_ (List.Nodup.of_cons hnd)]
      · simp
      · intro x hx
        simp only [List.mem_append, List.mem_singleton]
        rintro (hxa | hxm)
        · exact h x (List.mem_cons_of_mem m hx) hxa
        · subst hxm
          exact (List.nodup_cons.mp hnd).1 hx

/- ------------------------------------------------------------------
Claim C1.
------------------------------------------------------------------ -/

/-- Claim C1 counterexample: at a concrete message:send event whose
hot-store write fails, the handler acknowledges with success false
(pushMessage rethrows and the handler catch answers
Failed to process message), so the acknowledgment is not a success
acknowledgment as the claim states. -/
theorem C1_counterexample :
    (handleMessageSend initState "u1" "c1" "hello" "text" "m1" 5 true).acks.map Ack.success
      = [false] := by decide

/-- Claim C1 (amended): a Hot Store write failure never leaves the
sender unacknowledged, but the handler catches the pushMessage error
and invokes the callback with success false and the error string
Failed to process message; the message is not broadcast, no generation
job is enqueued and the cache is unchanged — the send aborts instead of
degrading to no-cache reads. -/
theorem C1_amended_ack_failure (s : SysState)
    (userId characterId content mtype msgId : String) (now : Nat)
    (hch : ¬ characterId = "") (hco : ¬ content = "") :
    handleMessageSend s userId characterId content mtype msgId now true
      = { s with acks := s.acks ++
          [{ success := false, error := some "Failed to process message",
             message := none }] } := by
  simp [handleMessageSend, hch, hco]

/-- Witness for C1_amended_ack_failure at a concrete event. -/
theorem C1_amended_witness :
    handleMessageSend initState "u1" "c1" "hello" "text" "m1" 5 true
      = { initState with acks := initState.acks ++
          [{ success := false, error := some "Failed to process message",
             message := none }] } :=
  C1_amended_ack_failure initState "u1" "c1" "hello" "text" "m1" 5
    (by decide) (by decide)

/- ------------------------------------------------------------------
Claim C2.
------------------------------------------------------------------ -/

/-- Claim C2 counterexample: saving the same one-message set twice into
an initially absent conversation document leaves the messages array at
one entry but doubles messageCount, so the record is not observably
unchanged by the second call. -/
theorem C2_counterexample :
    (applySave (some (applySave none "u" "c" [m0] 10)) "u" "c" [m0] 10).messageCount = 2 ∧
    (applySave none "u" "c" [m0] 10).messageCount = 1 ∧
    (applySave (some (applySave none "u" "c" [m0] 10)) "u" "c" [m0] 10)
      ≠ applySave none "u" "c" [m0] 10 := by decide

/-- Claim C2 (amended): calling saveConversation twice with the same
conversation and message set adds no message to the messages array the
second time (the arrayUnion merge is idempotent), but the second call
increments messageCount by the message-set size again and refreshes
updatedAt, so the conversation metadata does change. -/
theorem C2_amended_union_idempotent_count_drifts
    (doc : Option ConversationDoc) (uid chid : String)
    (msgs : List Message) (t1 t2 : Nat) :
    (applySave (some (applySave doc uid chid msgs t1)) uid chid msgs t2).messages
      = (applySave doc uid chid msgs t1).messages ∧
    (applySave (some (applySave doc uid chid msgs t1)) uid chid msgs t2).messageCount
      = (applySave doc uid chid msgs t1).messageCount + msgs.length ∧
    (applySave (some (applySave doc uid chid msgs t1)) uid chid msgs t2).updatedAt
      = t2 := by
  refine ⟨?_, ?_, ?_⟩
  · have hsub : ∀ m ∈ msgs, m ∈ (applySave doc uid chid msgs t1).messages := by
      intro m hm
      cases doc with
      | none => exact mem_arrayUnion_right msgs [] hm
      | some d => exact mem_arrayUnion_right msgs d.messages hm
    exact arrayUnion_eq_of_subset msgs _ hsub
  · rfl
  · rfl

/- ------------------------------------------------------------------
Claim C8.
------------------------------------------------------------------ -/

/-- Claim C8 counterexample: the hot-store read does not sort by
timestamp.  With m81 (timestamp 5) pushed before m83 (timestamp 3) the
cached list is [m83, m81] and getMessages returns [m81, m83], which is
not chronologically ascending. -/
theorem C8_counterexample :
    ¬ List.Pairwise (fun a b : Message => a.timestamp ≤ b.timestamp)
        (cacheGetMessages [m83, m81] 10) := by decide

/-- Claim C8 (amended): for limit at least 1 the hot-store read returns
the reverse of the first limit cached entries — the limit most recently
pushed messages, oldest pushed first — hence at most limit messages,
and the empty list on a total cache miss; this order is chronologically
ascending provided the cached list is ordered newest-first by
timestamp, as in-order pushes produce, since the read itself never
sorts by timestamp. -/
theorem C8_amended_reverse_push_order (l : List Message) (limit : Nat)
    (horder : List.Pairwise (fun a b : Message => b.timestamp ≤ a.timestamp) l)
    (hlim : 1 ≤ limit) :
    cacheGetMessages l limit = (l.take limit).reverse ∧
    List.Pairwise (fun a b : Message => a.timestamp ≤ b.timestamp)
      (cacheGetMessages l limit) ∧
    (cacheGetMessages l limit).length ≤ limit ∧
    cacheGetMessages [] limit = [] := by
  have hz : ¬ limit = 0 := by omega
  refine ⟨by simp [cacheGetMessages, hz], ?_, ?_, by simp [cacheGetMessages, hz]⟩
  · rw [cacheGetMessages, if_neg hz, List.pairwise_reverse]
    exact List.Pairwise.sublist (List.take_sublist limit l) horder
  · rw [cacheGetMessages, if_neg hz, List.length_reverse, List.length_take]
    exact min_le_left _ _

/-- Witness for C8_amended_reverse_push_order on a concrete
newest-first cache list. -/
theorem C8_amended_witness :
    cacheGetMessages [m81, m83] 2 = ([m81, m83].take 2).reverse ∧
    List.Pairwise (fun a b : Message => a.timestamp ≤ b.timestamp)
      (cacheGetMessages [m81, m83] 2) ∧
    (cacheGetMessages [m81, m83] 2).length ≤ 2 ∧
    cacheGetMessages [] 2 = [] :=
  C8_amended_reverse_push_order [m81, m83] 2 (by decide) (by decide)

/- ------------------------------------------------------------------
Helper lemmas about the write_queue sorted set.
------------------------------------------------------------------ -/

theorem mem_zAdd {x : String × Nat} :
    ∀ (q : List (String × Nat)) (m : String) (sc : Nat),
      x ∈ zAdd q m sc → x ∈ q ∨ x = (m, sc) := by
  intro q
  induction q with
  | nil => intro m sc h; simp [zAdd] at h; exact Or.inr h
  | cons p rest ih =>
      intro m sc h
      by_cases hp : p.1 = m
      · rw [zAdd, if_pos hp] at h
        rcases List.mem_cons.mp h with h | h
        · exact Or.inr h
        · exact Or.inl (List.mem_cons_of_mem p h)
      · rw [zAdd, if_neg hp] at h
        rcases List.mem_cons.mp h with h | h
        · exact Or.inl (h ▸ List.mem_cons_self p rest)
        · rcases ih m sc h with h | h
          · exact Or.inl (List.mem_cons_of_mem p h)
          · exact Or.inr h

theorem zAdd_pairwise :
    ∀ (q : List (String × Nat)) (m : String) (sc : Nat),
      List.Pairwise (fun p r : String × Nat => p.1 ≠ r.1) q →
      List.Pairwise (fun p r : String × Nat => p.1 ≠ r.1) (zAdd q m sc) := by
  intro q
  induction q with
  | nil => intro m sc _; simp [zAdd]
  | cons p rest ih =>
      intro m sc h
      rcases List.pairwise_cons.mp h with ⟨hhead, htail⟩
      by_cases hp : p.1 = m
      · rw [zAdd, if_pos hp]
        exact List.pairwise_cons.mpr ⟨fun r hr => hp ▸ hhead r hr, htail⟩
      · rw [zAdd, if_neg hp]
        refine List.pairwise_cons.mpr ⟨?_, ih m sc htail⟩
        intro r hr
        rcases mem_zAdd rest m sc hr with h1 | h1
        · exact hhead r h1
        · rw [h1]; exact hp

theorem entryCount_zero (q : List (String × Nat)) (m : String)
    (h : ∀ p ∈ q, p.1 ≠ m) : entryCount q m = 0 := by
  rw [entryCount, List.length_eq_zero, List.filter_eq_nil_iff]
  intro p hp
  simpa using h p hp

theorem zAdd_entryCount :
    ∀ (q : List (String × Nat)) (m : String) (sc : Nat),
      List.Pairwise (fun p r : String × Nat => p.1 ≠ r.1) q →
      entryCount (zAdd q m sc) m = 1 := by
  intro q
  induction q with
  | nil => intro m sc _; simp [zAdd, entryCount]
  | cons p rest ih =>
      intro m sc h
      rcases List.pairwise_cons.mp h with ⟨hhead, htail⟩
      by_cases hp : p.1 = m
      · rw [zAdd, if_pos hp]
        rw [entryCount, List.filter_cons_of_pos (by simp)]
        have hrest : List.filter (fun r : String × Nat => decide (r.1 = m)) rest = [] := by
          rw [List.filter_eq_nil_iff]
          intro r hr
          have hne := hhead r hr
          rw [hp] at hne
          simpa using Ne.symm hne
        simp [hrest]
      · rw [zAdd, if_neg hp]
        rw [entryCount, List.filter_cons_of_neg (by simpa using hp)]
        exact ih m sc htail

theorem zAdd_scoreOf :
    ∀ (q : List (String × Nat)) (m : String) (sc : Nat),
      scoreOf (zAdd q m sc) m = some sc := by
  intro q
  induction q with
  | nil => intro m sc; simp [zAdd, scoreOf]
  | cons p rest ih =>
      intro m sc
      by_cases hp : p.1 = m
      · rw [zAdd, if_pos hp]
        simp [scoreOf]
      · rw [zAdd, if_neg hp]
        rw [scoreOf, List.find?_cons_of_neg _ (by simpa using hp)]
        exact ih m sc

/- ------------------------------------------------------------------
Claim C4.
------------------------------------------------------------------ -/

/-- Claim C4: when the write_queue holds at most one entry per
conversation, a call of queueMessagesForBatchWrite keeps every
conversation at one entry at most, leaves exactly one entry for the
queued conversation, and sets its due score to now + delaySeconds *
1000 irrespective of any prior score — zAdd overwrites, so the window
slides even when the new due time is later than the old one. -/
theorem C4_upsert_single_schedule_entry (s : SysState)
    (cid uid chid : String) (msgs : List Message) (now : Nat)
    (h : List.Pairwise (fun p r : String × Nat => p.1 ≠ r.1) s.writeQueue) :
    List.Pairwise (fun p r : String × Nat => p.1 ≠ r.1)
      (queueMessagesForBatchWrite s cid uid chid msgs now true).writeQueue ∧
    entryCount (queueMessagesForBatchWrite s cid uid chid msgs now true).writeQueue cid = 1 ∧
    scoreOf (queueMessagesForBatchWrite s cid uid chid msgs now true).writeQueue cid
      = some (now + delaySeconds * 1000) := by
  refine ⟨?_, ?_, ?_⟩
  · exact zAdd_pairwise s.writeQueue cid (now + delaySeconds * 1000) h
  · exact zAdd_entryCount s.writeQueue cid (now + delaySeconds * 1000) h
  · exact zAdd_scoreOf s.writeQueue cid (now + delaySeconds * 1000)

/-- Witness for C4_upsert_single_schedule_entry: the prior entry for
u_c is due at 50; rescheduling at now = 1000000 moves the single entry
to the later due time 1120000. -/
theorem C4_witness :
    List.Pairwise (fun p r : String × Nat => p.1 ≠ r.1)
      (queueMessagesForBatchWrite sC4 "u_c" "u" "c" [m0] 1000000 true).writeQueue ∧
    entryCount (queueMessagesForBatchWrite sC4 "u_c" "u" "c" [m0] 1000000 true).writeQueue "u_c" = 1 ∧
    scoreOf (queueMessagesForBatchWrite sC4 "u_c" "u" "c" [m0] 1000000 true).writeQueue "u_c"
      = some (1000000 + delaySeconds * 1000) :=
  C4_upsert_single_schedule_entry sC4 "u_c" "u" "c" [m0] 1000000 (by decide)

/- ------------------------------------------------------------------
Claim C7.
------------------------------------------------------------------ -/

/-- Any invocation of writeConversationBatch leaves the pending list of
the flushed conversation empty: every branch ends in
cleanupConversationKeys. -/
theorem writeConversationBatch_pending_empty
    (s : SysState) (cid : String) (now : Nat) (oracle : Nat → Bool) :
    (writeConversationBatch s cid now oracle).pending cid = [] := by
  rw [writeConversationBatch]
  by_cases h0 : (s.pending cid).length = 0
  · simp [h0, cleanupConversationKeys]
  · simp only [h0, if_false]
    cases retrySucceedsAt oracle retryAttempts with
    | some i => simp [cleanupConversationKeys]
    | none => simp [handleFailedWrite, cleanupConversationKeys]

/-- Claim C7: flushing a conversation whose pending batch is empty — in
particular a second flush of an already flushed conversation, whose
pending list any first flush leaves empty — performs no durable write,
appends nothing to the dead-letter list, logs no truncation warning,
raises no error, and only clears the pending and metadata keys of that
conversation. -/
theorem C7_empty_flush_is_cleanup_only (s : SysState) (cid : String)
    (now : Nat) (oracle : Nat → Bool) (h : s.pending cid = []) :
    writeConversationBatch s cid now oracle = cleanupConversationKeys s cid ∧
    (cleanupConversationKeys s cid).durable = s.durable ∧
    (cleanupConversationKeys s cid).dlq = s.dlq ∧
    (cleanupConversationKeys s cid).warnings = s.warnings ∧
    (cleanupConversationKeys s cid).writeQueue = s.writeQueue ∧
    (cleanupConversationKeys s cid).broadcasts = s.broadcasts ∧
    (cleanupConversationKeys s cid).pending cid = [] ∧
    (cleanupConversationKeys s cid).meta cid = none ∧
    (∀ c, ¬ c = cid →
      (cleanupConversationKeys s cid).pending c = s.pending c ∧
      (cleanupConversationKeys s cid).meta c = s.meta c) ∧
    (∀ t : SysState, ∀ m : Nat, ∀ o2 : Nat → Bool,
      (writeConversationBatch t cid m o2).pending cid = []) := by
  refine ⟨?_, rfl, rfl, rfl, rfl, rfl, by simp [cleanupConversationKeys],
    by simp [cleanupConversationKeys], ?_, ?_⟩
  · rw [writeConversationBatch]
    simp [h]
  · intro c hc
    simp [cleanupConversationKeys, hc]
  · intro t m o2
    exact writeConversationBatch_pending_empty t cid m o2

/-- Witness for C7_empty_flush_is_cleanup_only on the empty state. -/
theorem C7_witness :
    writeConversationBatch initState "u_c" 7 (fun _ => true)
      = cleanupConversationKeys initState "u_c" ∧
    (cleanupConversationKeys initState "u_c").durable = initState.durable ∧
    (cleanupConversationKeys initState "u_c").dlq = initState.dlq ∧
    (cleanupConversationKeys initState "u_c").warnings = initState.warnings ∧
    (cleanupConversationKeys initState "u_c").writeQueue = initState.writeQueue ∧
    (cleanupConversationKeys initState "u_c").broadcasts = initState.broadcasts ∧
    (cleanupConversationKeys initState "u_c").pending "u_c" = [] ∧
    (cleanupConversationKeys initState "u_c").meta "u_c" = none ∧
    (∀ c, ¬ c = "u_c" →
      (cleanupConversationKeys initState "u_c").pending c = initState.pending c ∧
      (cleanupConversationKeys initState "u_c").meta c = initState.meta c) ∧
    (∀ t : SysState, ∀ m : Nat, ∀ o2 : Nat → Bool,
      (writeConversationBatch t "u_c" m o2).pending "u_c" = []) :=
  C7_empty_flush_is_cleanup_only initState "u_c" 7 (fun _ => true) rfl

/- ------------------------------------------------------------------
Claim C3.
------------------------------------------------------------------ -/

/-- When every attempt fails, the retry loop finds no success. -/
theorem firstSuccessAux_none (oracle : Nat → Bool)
    (hfail : ∀ i, oracle i = false) :
    ∀ (budget start : Nat), firstSuccessAux oracle start budget = none := by
  intro budget
  induction budget with
  | zero => intro start; rfl
  | succ n ih =>
      intro start
      rw [firstSuccessAux, hfail start]
      simpa using ih (start + 1)

/-- zRem removes every schedule entry of the member. -/
theorem scoreOf_zRem (q : List (String × Nat)) (m : String) :
    scoreOf (zRem q m) m = none := by
  have hfind : List.find? (fun p => decide (p.1 = m)) (zRem q m) = none := by
    rw [List.find?_eq_none]
    intro p hp
    rcases List.mem_filter.mp hp with ⟨_, hkey⟩
    simpa using of_decide_eq_true hkey
  rw [scoreOf, hfind]
  rfl

/-- Claim C3: when the durable write fails on every retry attempt for a
due conversation with a non-empty pending batch, the worker appends
exactly one dead-letter entry holding all pending messages and the
metadata with the failure time and error, clears the pending and
metadata keys, removes the schedule entry, and leaves the durable store
untouched. -/
theorem C3_dead_letter_on_exhaustion (s : SysState) (cid : String)
    (now : Nat) (oracle : Nat → Bool)
    (hfail : ∀ i, oracle i = false) (hne : ¬ s.pending cid = []) :
    (processDueConversation s cid now oracle).dlq
      = s.dlq ++ [{ conversationId := cid, messages := s.pending cid,
                    metadata := s.meta cid, failedAt := now,
                    error := "write failed" }] ∧
    (processDueConversation s cid now oracle).pending cid = [] ∧
    (processDueConversation s cid now oracle).meta cid = none ∧
    scoreOf (processDueConversation s cid now oracle).writeQueue cid = none ∧
    (processDueConversation s cid now oracle).durable = s.durable := by
  have hlen : ¬ (s.pending cid).length = 0 := by
    simpa [List.length_eq_zero] using hne
  have hretry : retrySucceedsAt oracle retryAttempts = none :=
    firstSuccessAux_none oracle hfail (retryAttempts + 1) 0
  rw [processDueConversation, writeConversationBatch]
  simp only [hlen, if_false, hretry]
  by_cases hcap : (s.pending cid).length > maxMessagesPerBatch
  · simp [hcap, handleFailedWrite, cleanupConversationKeys, scoreOf_zRem]
  · simp [hcap, handleFailedWrite, cleanupConversationKeys, scoreOf_zRem]

/-- Witness for C3_dead_letter_on_exhaustion at a state with one
pending message, metadata and a due schedule entry. -/
theorem C3_witness :
    (processDueConversation sC3 "u_c" 9 (fun _ => false)).dlq
      = sC3.dlq ++ [{ conversationId := "u_c", messages := sC3.pending "u_c",
                      metadata := sC3.meta "u_c", failedAt := 9,
                      error := "write failed" }] ∧
    (processDueConversation sC3 "u_c" 9 (fun _ => false)).pending "u_c" = [] ∧
    (processDueConversation sC3 "u_c" 9 (fun _ => false)).meta "u_c" = none ∧
    scoreOf (processDueConversation sC3 "u_c" 9 (fun _ => false)).writeQueue "u_c" = none ∧
    (processDueConversation sC3 "u_c" 9 (fun _ => false)).durable = sC3.durable :=
  C3_dead_letter_on_exhaustion sC3 "u_c" 9 (fun _ => false)
    (fun _ => rfl) (by decide)

/- ------------------------------------------------------------------
Claim C5.
------------------------------------------------------------------ -/

/-- The 501 witness messages are pairwise distinct (their timestamps
differ). -/
theorem msgs501_nodup : msgs501.Nodup := by
  rw [msgs501]
  exact List.Nodup.map (fun i j h => congrArg Message.timestamp h) (List.nodup_range 501)

/-- Claim C5: flushing a conversation whose pending batch exceeds
maxMessagesPerBatch persists exactly the most recent
maxMessagesPerBatch messages — the final segment of the rPush-ordered
pending list — into the durable document, logs one truncation warning,
and clears the pending keys.  In particular a batch of max + 1 messages
yields exactly max persisted messages. -/
theorem C5_batch_cap_truncates_to_most_recent (s : SysState) (cid : String)
    (msgs : List Message) (now : Nat) (oracle : Nat → Bool)
    (hp : s.pending cid = msgs) (hlen : msgs.length > maxMessagesPerBatch)
    (hnd : msgs.Nodup) (hdoc : s.durable cid = none) (ho : oracle 0 = true) :
    (writeConversationBatch s cid now oracle).warnings = s.warnings + 1 ∧
    (writeConversationBatch s cid now oracle).pending cid = [] ∧
    (writeConversationBatch s cid now oracle).meta cid = none ∧
    Option.map ConversationDoc.messages
      ((writeConversationBatch s cid now oracle).durable cid)
      = some (msgs.drop (msgs.length - maxMessagesPerBatch)) ∧
    (msgs.drop (msgs.length - maxMessagesPerBatch)).length = maxMessagesPerBatch := by
  have hlen0 : ¬ msgs.length = 0 := by omega
  have hcap : decide (msgs.length > maxMessagesPerBatch) = true := decide_eq_true hlen
  have hretry : retrySucceedsAt oracle retryAttempts = some 0 := by
    simp [retrySucceedsAt, retryAttempts, firstSuccessAux, ho]
  have hw : sliceNeg msgs maxMessagesPerBatch
      = msgs.drop (msgs.length - maxMessagesPerBatch) := by
    simp [sliceNeg, maxMessagesPerBatch]
  have hnodup : (msgs.drop (msgs.length - maxMessagesPerBatch)).Nodup :=
    List.Nodup.sublist (List.drop_sublist _ _) hnd
  have hunion : arrayUnion [] (msgs.drop (msgs.length - maxMessagesPerBatch))
      = msgs.drop (msgs.length - maxMessagesPerBatch) := by
    simpa using arrayUnion_append_of_disjoint
      (msgs.drop (msgs.length - maxMessagesPerBatch)) []
      (by intro m _ hm; simp at hm) hnodup
  rw [writeConversationBatch]
  simp only [hp, hlen0, if_false, hcap, if_true, hretry, hw]
  refine ⟨by simp [cleanupConversationKeys, saveConversationOp],
    by simp [cleanupConversationKeys],
    by simp [cleanupConversationKeys], ?_, ?_⟩
  · simp [cleanupConversationKeys, saveConversationOp, hdoc, applySave, hunion]
  · rw [List.length_drop]
    omega

/-- Witness for C5_batch_cap_truncates_to_most_recent: 501 pending
messages, one over the cap of 500. -/
theorem C5_witness :
    (writeConversationBatch s501 "c5" 3 (fun _ => true)).warnings = s501.warnings + 1 ∧
    (writeConversationBatch s501 "c5" 3 (fun _ => true)).pending "c5" = [] ∧
    (writeConversationBatch s501 "c5" 3 (fun _ => true)).meta "c5" = none ∧
    Option.map ConversationDoc.messages
      ((writeConversationBatch s501 "c5" 3 (fun _ => true)).durable "c5")
      = some (msgs501.drop (msgs501.length - maxMessagesPerBatch)) ∧
    (msgs501.drop (msgs501.length - maxMessagesPerBatch)).length = maxMessagesPerBatch :=
  C5_batch_cap_truncates_to_most_recent s501 "c5" msgs501 3 (fun _ => true)
    (by simp [s501]) (by simp [msgs501, maxMessagesPerBatch]) msgs501_nodup
    (by simp [s501, initState]) rfl

/- ------------------------------------------------------------------
Claim C6.
------------------------------------------------------------------ -/

/-- The cache-first history read touches only the cache: all other
state components are preserved. -/
theorem getMessagesF_snd_fields (s : SysState) (cid : String) (n : Nat) :
    ((getMessagesF s cid n).2).broadcasts = s.broadcasts ∧
    ((getMessagesF s cid n).2).durable = s.durable ∧
    ((getMessagesF s cid n).2).pending = s.pending ∧
    ((getMessagesF s cid n).2).meta = s.meta ∧
    ((getMessagesF s cid n).2).writeQueue = s.writeQueue ∧
    ((getMessagesF s cid n).2).dlq = s.dlq ∧
    ((getMessagesF s cid n).2).warnings = s.warnings := by
  rw [getMessagesF]
  by_cases h : (cacheGetMessages (s.cache cid) n).length > 0
  · simp [h]
  · simp only [h, if_false]
    cases hd : s.durable cid with
    | none => simp
    | some doc => simp

/-- A generation failure lands processMessage in the catch branch: the
system error message is broadcast and the job attempt fails. -/
theorem processMessage_gen_failure (s : SysState) (job : JobData) (now : Nat)
    (aiId : String) (be mo : Bool) :
    processMessage s job now aiId true none be mo
      = (emitError (getMessagesF s job.conversationId 20).2 job.conversationId now,
         false) := by
  rfl

/-- One failing attempt of the retry driver: broadcast the error and
either stop (last attempt) or recurse on the error state. -/
theorem runJobAux_fail_step (job : JobData) (gen : Nat → Option String)
    (times : Nat → Nat) (aiId : String) (be mo : Bool)
    (hgen : ∀ i, gen i = none) (t : SysState) (i b : Nat) :
    runJobAux job true gen times aiId be mo t i (b + 1)
      = if b = 0 then
          (emitError (getMessagesF t job.conversationId 20).2
            job.conversationId (times i), false, i + 1)
        else
          runJobAux job true gen times aiId be mo
            (emitError (getMessagesF t job.conversationId 20).2
              job.conversationId (times i)) (i + 1) b := by
  rw [runJobAux, hgen i, processMessage_gen_failure]
  simp only [if_false]
  rfl

/-- Broadcast effect of one failing attempt. -/
theorem emit_step_broadcasts (job : JobData) (times : Nat → Nat)
    (t : SysState) (i : Nat) :
    (emitError (getMessagesF t job.conversationId 20).2
      job.conversationId (times i)).broadcasts
      = t.broadcasts ++ [errorMessage job.conversationId (times i)] := by
  rw [emitError]
  simp [(getMessagesF_snd_fields t job.conversationId 20).1]

/-- Claim C6: with defaultJobOptions the queue gives a generation job 3
attempts with exponential backoff (delays 2000ms then 4000ms); when the
generator fails on every attempt the job executes exactly 3 times, each
failing run broadcasts the system error message — in particular one is
broadcast on the final failure — and the job finishes failed, not
requeued further. -/
theorem C6_three_attempts_then_system_error (s : SysState) (job : JobData)
    (gen : Nat → Option String) (times : Nat → Nat) (aiId : String)
    (be mo : Bool) (hgen : ∀ i, gen i = none) :
    (runJob s job true gen times aiId be mo).2.1 = false ∧
    (runJob s job true gen times aiId be mo).2.2 = defaultJobOptions.attempts ∧
    (runJob s job true gen times aiId be mo).1.broadcasts
      = s.broadcasts ++ [errorMessage job.conversationId (times 0),
                         errorMessage job.conversationId (times 1),
                         errorMessage job.conversationId (times 2)] ∧
    (errorMessage job.conversationId (times 2)).sender = "system" ∧
    (errorMessage job.conversationId (times 2)).type = "error" ∧
    defaultJobOptions.backoffType = "exponential" ∧
    backoffSchedule defaultJobOptions = [2000, 4000] := by
  have hrun : runJob s job true gen times aiId be mo
      = (emitError (getMessagesF
          (emitError (getMessagesF
            (emitError (getMessagesF s job.conversationId 20).2
              job.conversationId (times 0)) job.conversationId 20).2
            job.conversationId (times 1)) job.conversationId 20).2
          job.conversationId (times 2), false, 3) := by
    rw [runJob]
    show runJobAux job true gen times aiId be mo s 0 (2 + 1) = _
    rw [runJobAux_fail_step job gen times aiId be mo hgen s 0 2]
    rw [if_neg (by omega)]
    rw [runJobAux_fail_step job gen times aiId be mo hgen _ 1 1]
    rw [if_neg (by omega)]
    rw [runJobAux_fail_step job gen times aiId be mo hgen _ 2 0]
    rw [if_pos rfl]
  refine ⟨by rw [hrun], by rw [hrun]; rfl, ?_, rfl, rfl, rfl, by decide⟩
  rw [hrun]
  simp only [emit_step_broadcasts job times]
  simp [List.append_assoc]

/-- Witness for C6_three_attempts_then_system_error on a concrete job
whose generator always fails. -/
theorem C6_witness :
    (runJob initState
      { conversationId := "u_c", characterId := "c", userMessage := m0, userId := "u" }
      true (fun _ => none) (fun i => i) "ai" true true).2.1 = false ∧
    (runJob initState
      { conversationId := "u_c", characterId := "c", userMessage := m0, userId := "u" }
      true (fun _ => none) (fun i => i) "ai" true true).2.2 = defaultJobOptions.attempts ∧
    (runJob initState
      { conversationId := "u_c", characterId := "c", userMessage := m0, userId := "u" }
      true (fun _ => none) (fun i => i) "ai" true true).1.broadcasts
      = initState.broadcasts ++ [errorMessage "u_c" 0, errorMessage "u_c" 1,
                                 errorMessage "u_c" 2] ∧
    (errorMessage "u_c" 2).sender = "system" ∧
    (errorMessage "u_c" 2).type = "error" ∧
    defaultJobOptions.backoffType = "exponential" ∧
    backoffSchedule defaultJobOptions = [2000, 4000] :=
  C6_three_attempts_then_system_error initState
    { conversationId := "u_c", characterId := "c", userMessage := m0, userId := "u" }
    (fun _ => none) (fun i => i) "ai" true true (fun _ => rfl)

/- ------------------------------------------------------------------
Claim C10.
------------------------------------------------------------------ -/

/-- Claim C10: when queuing the generated exchange for the delayed
batch write fails (the Redis transaction errors), the worker falls back
to an immediate saveConversation of the same two messages, leaving the
scheduling structures untouched; the identical immediate-write path is
taken when batch writing is disabled by configuration.  Either way the
messages reach the durable store and are never silently dropped. -/
theorem C10_fallback_immediate_durable_write (s : SysState) (job : JobData)
    (now : Nat) (aiId text : String) :
    (processMessage s job now aiId true (some text) true false).1.durable
        job.conversationId
      = some (applySave (s.durable job.conversationId) job.userId job.characterId
          [job.userMessage,
           { id := aiId, sender := "character", type := "text", content := text,
             timestamp := now, conversationId := job.conversationId }] now) ∧
    (processMessage s job now aiId true (some text) false true).1.durable
        job.conversationId
      = some (applySave (s.durable job.conversationId) job.userId job.characterId
          [job.userMessage,
           { id := aiId, sender := "character", type := "text", content := text,
             timestamp := now, conversationId := job.conversationId }] now) ∧
    (processMessage s job now aiId true (some text) true false).1.pending
      = s.pending ∧
    (processMessage s job now aiId true (some text) true false).1.writeQueue
      = s.writeQueue := by
  have hf := getMessagesF_snd_fields s job.conversationId 20
  refine ⟨?_, ?_, ?_, ?_⟩ <;>
    simp [processMessage, queueMessagesForBatchWrite, saveConversationOp,
      pushMessageOp, hf.2.1, hf.2.2.1, hf.2.2.2.2.1]

/- ------------------------------------------------------------------
Claim C9: supporting lemmas.
------------------------------------------------------------------ -/

/-- The cache read of a non-empty list is non-empty. -/
theorem cacheGetMessages_pos (l : List Message) (n : Nat) (h : ¬ l = []) :
    0 < (cacheGetMessages l n).length := by
  rcases List.exists_cons_of_ne_nil h with ⟨m, rest, rfl⟩
  cases n with
  | zero => simp [cacheGetMessages]
  | succ k =>
      rw [cacheGetMessages, if_neg (by omega), List.length_reverse,
        List.take_succ_cons, List.length_cons]
      omega

/-- The cache read of an empty list is empty. -/
theorem cacheGetMessages_nil (n : Nat) : cacheGetMessages [] n = [] := by
  cases n <;> simp [cacheGetMessages]

/-- On a cache hit the history read leaves the state unchanged. -/
theorem getMessagesF_hit (s : SysState) (cid : String) (n : Nat)
    (h : 0 < (cacheGetMessages (s.cache cid) n).length) :
    (getMessagesF s cid n).2 = s := by
  rw [getMessagesF]
  simp [h]

/-- On a total cache miss with an existing document, the history read
returns the timestamp-sorted final segment of the document messages. -/
theorem getMessagesF_miss_doc (x : SysState) (c : String) (limit : Nat)
    (doc : ConversationDoc) (hc : x.cache c = []) (hd : x.durable c = some doc) :
    (getMessagesF x c limit).1 = sliceNeg (sortByTimestamp doc.messages) limit := by
  rw [getMessagesF]
  simp [hc, cacheGetMessages_nil, hd]

/-- Reading at least two messages from a cache list with newest head
a, then u, yields a list ending in u then a. -/
theorem cacheGetMessages_cons2 (a u : Message) (r : List Message) (k : Nat) :
    cacheGetMessages (a :: u :: r) (k + 2) = (r.take k).reverse ++ [u, a] := by
  rw [cacheGetMessages, if_neg (by omega)]
  simp [List.take_succ_cons, List.append_assoc]

/-- slice(-limit) of a list ending in [u, a] keeps that tail whenever
limit is at least 2. -/
theorem sliceNeg_append_two (prior : List Message) (u a : Message) (limit : Nat)
    (h2 : 2 ≤ limit) :
    sliceNeg (prior ++ [u, a]) limit
      = prior.drop (prior.length + 2 - limit) ++ [u, a] := by
  rw [sliceNeg, if_neg (by omega)]
  have hlen : (prior ++ [u, a]).length = prior.length + 2 := by simp
  rw [hlen, List.drop_append_of_le_length (by omega)]

/-- Appending a user message and a later response to a sorted history
bounded by the user timestamp keeps the list sorted. -/
theorem sorted_append_two (prior : List Message) (u a : Message)
    (hsorted : List.Pairwise (fun x y : Message => x.timestamp ≤ y.timestamp) prior)
    (hle : ∀ m ∈ prior, m.timestamp ≤ u.timestamp)
    (hua : u.timestamp ≤ a.timestamp) :
    List.Sorted (fun x y : Message => x.timestamp ≤ y.timestamp) (prior ++ [u, a]) := by
  rw [List.Sorted, List.pairwise_append]
  refine ⟨hsorted, ?_, ?_⟩
  · simp [hua]
  · intro x hx y hy
    rcases List.mem_cons.mp hy with h | h
    · exact h ▸ hle x hx
    · rcases List.mem_singleton.mp h with rfl
      exact le_trans (hle x hx) hua

/-- The handler success path: the user message is pushed onto the
conversation cache and all stores other than the cache are untouched. -/
theorem handleMessageSend_success_shape (x : SysState)
    (userId characterId content msgId : String) (t1 : Nat)
    (hch : ¬ characterId = "") (hco : ¬ content = "") :
    (handleMessageSend x userId characterId content "text" msgId t1 false).cache
        (userId ++ "_" ++ characterId)
      = pipelineUserMsg userId characterId content msgId t1
          :: x.cache (userId ++ "_" ++ characterId) ∧
    (handleMessageSend x userId characterId content "text" msgId t1 false).durable
      = x.durable ∧
    (handleMessageSend x userId characterId content "text" msgId t1 false).pending
      = x.pending ∧
    (handleMessageSend x userId characterId content "text" msgId t1 false).meta
      = x.meta ∧
    (handleMessageSend x userId characterId content "text" msgId t1 false).writeQueue
      = x.writeQueue := by
  refine ⟨?_, ?_, ?_, ?_, ?_⟩ <;>
    simp [handleMessageSend, hch, hco, pushMessageOp, pipelineUserMsg]

/-- The worker success path on a cache hit: the response message is
pushed onto the conversation cache, the durable store is untouched, the
two messages are appended to the pending batch and the metadata hash is
set. -/
theorem processMessage_success_shape (x : SysState) (cid chId uid : String)
    (um : Message) (t2 : Nat) (aiId text : String)
    (hne : ¬ x.cache cid = []) :
    (processMessage x
        { conversationId := cid, characterId := chId, userMessage := um, userId := uid }
        t2 aiId true (some text) true true).1.cache cid
      = { id := aiId, sender := "character", type := "text", content := text,
          timestamp := t2, conversationId := cid } :: x.cache cid ∧
    (processMessage x
        { conversationId := cid, characterId := chId, userMessage := um, userId := uid }
        t2 aiId true (some text) true true).1.durable
      = x.durable ∧
    (processMessage x
        { conversationId := cid, characterId := chId, userMessage := um, userId := uid }
        t2 aiId true (some text) true true).1.pending cid
      = x.pending cid ++
          [um,
           { id := aiId, sender := "character", type := "text", content := text,
             timestamp := t2, conversationId := cid }] ∧
    (processMessage x
        { conversationId := cid, characterId := chId, userMessage := um, userId := uid }
        t2 aiId true (some text) true true).1.meta cid
      = some { userId := uid, characterId := chId, createdAt := t2 } := by
  have hhit : (getMessagesF x cid 20).2 = x :=
    getMessagesF_hit x cid 20 (cacheGetMessages_pos (x.cache cid) 20 hne)
  refine ⟨?_, ?_, ?_, ?_⟩ <;>
    simp [processMessage, hhit, pushMessageOp, queueMessagesForBatchWrite]

/-- The flush success path for a small batch: the cache is untouched
and the durable document receives the pending messages via
saveConversation under the stored metadata. -/
theorem flush_success_shape (x : SysState) (c : String) (t3 : Nat)
    (oracle : Nat → Bool) (msgs : List Message)
    (hp2 : x.pending c = msgs) (h0 : ¬ msgs.length = 0)
    (hcap : ¬ msgs.length > maxMessagesPerBatch) (ho : oracle 0 = true) :
    (processDueConversation x c t3 oracle).cache = x.cache ∧
    (processDueConversation x c t3 oracle).durable c
      = some (applySave (x.durable c) (metaOrUndefined (x.meta c)).userId
          (metaOrUndefined (x.meta c)).characterId msgs t3) := by
  have hretry : retrySucceedsAt oracle retryAttempts = some 0 := by
    simp [retrySucceedsAt, retryAttempts, firstSuccessAux, ho]
  have hcapb : decide (msgs.length > maxMessagesPerBatch) = false := by
    simpa using hcap
  rw [processDueConversation, writeConversationBatch]
  simp only [hp2, h0, if_false, hcapb, hretry]
  constructor <;>
    simp [cleanupConversationKeys, saveConversationOp]

/-- Claim C9: the inbound user message is cached before the generation
job runs and the response timestamp is taken after generation, so for
any read limit of at least two, both the hot-store read of the
conversation and — after the batch flush, even with the cache cleared —
the timestamp-sorted durable read place the user message immediately
before its generated response at the end of the returned history.
Hypotheses: valid send fields, no pending batch beforehand, a first-try
flush, a durable history that is timestamp-sorted and bounded by the
ingestion time t1, monotone clock t1 ≤ t2, and fresh message objects. -/
theorem C9_user_precedes_response (s : SysState)
    (userId characterId content userMsgId aiMsgId aiText : String)
    (t1 t2 t3 : Nat) (oracle : Nat → Bool) (limit : Nat)
    (hch : ¬ characterId = "") (hco : ¬ content = "")
    (hp : s.pending (userId ++ "_" ++ characterId) = [])
    (horacle : oracle 0 = true) (hlim : 2 ≤ limit)
    (hsorted : List.Pairwise (fun x y : Message => x.timestamp ≤ y.timestamp)
      (docMessages (s.durable (userId ++ "_" ++ characterId))))
    (hle : ∀ m ∈ docMessages (s.durable (userId ++ "_" ++ characterId)),
      m.timestamp ≤ t1)
    (ht : t1 ≤ t2)
    (hu : pipelineUserMsg userId characterId content userMsgId t1
      ∉ docMessages (s.durable (userId ++ "_" ++ characterId)))
    (ha : pipelineAiMsg userId characterId aiText aiMsgId t2
      ∉ docMessages (s.durable (userId ++ "_" ++ characterId))) :
    (∃ l, cacheGetMessages
        ((runPipeline s userId characterId content userMsgId aiMsgId aiText
            t1 t2 t3 oracle).cache (userId ++ "_" ++ characterId)) limit
      = l ++ [pipelineUserMsg userId characterId content userMsgId t1,
              pipelineAiMsg userId characterId aiText aiMsgId t2]) ∧
    (∃ l, (getMessagesF
        (clearMessagesOp
          (runPipeline s userId characterId content userMsgId aiMsgId aiText
            t1 t2 t3 oracle) (userId ++ "_" ++ characterId))
        (userId ++ "_" ++ characterId) limit).1
      = l ++ [pipelineUserMsg userId characterId content userMsgId t1,
              pipelineAiMsg userId characterId aiText aiMsgId t2]) := by
  simp only [pipelineUserMsg, pipelineAiMsg] at hu ha ⊢
  have h1 := handleMessageSend_success_shape s userId characterId content userMsgId t1 hch hco
  simp only [pipelineUserMsg] at h1
  have hne : ¬ (handleMessageSend s userId characterId content "text" userMsgId t1
      false).cache (userId ++ "_" ++ characterId) = [] := by
    rw [h1.1]
    simp
  have h2 := processMessage_success_shape
    (handleMessageSend s userId characterId content "text" userMsgId t1 false)
    (userId ++ "_" ++ characterId) characterId userId
    { id := userMsgId, sender := "user", type := "text", content := content,
      timestamp := t1, conversationId := userId ++ "_" ++ characterId }
    t2 aiMsgId aiText hne
  have hpend : (processMessage
      (handleMessageSend s userId characterId content "text" userMsgId t1 false)
      { conversationId := userId ++ "_" ++ characterId, characterId := characterId,
        userMessage := { id := userMsgId, sender := "user", type := "text", content := content, timestamp := t1, conversationId := userId ++ "_" ++ characterId },
        userId := userId }
      t2 aiMsgId true (some aiText) true true).1.pending (userId ++ "_" ++ characterId)
      = [{ id := userMsgId, sender := "user", type := "text", content := content,
           timestamp := t1, conversationId := userId ++ "_" ++ characterId },
         { id := aiMsgId, sender := "character", type := "text", content := aiText,
           timestamp := t2, conversationId := userId ++ "_" ++ characterId }] := by
    rw [h2.2.2.1, h1.2.2.1, hp]
    rfl
  have h3 := flush_success_shape
    (processMessage
      (handleMessageSend s userId characterId content "text" userMsgId t1 false)
      { conversationId := userId ++ "_" ++ characterId, characterId := characterId,
        userMessage := { id := userMsgId, sender := "user", type := "text", content := content, timestamp := t1, conversationId := userId ++ "_" ++ characterId },
        userId := userId }
      t2 aiMsgId true (some aiText) true true).1
    (userId ++ "_" ++ characterId) t3 oracle
    [{ id := userMsgId, sender := "user", type := "text", content := content,
       timestamp := t1, conversationId := userId ++ "_" ++ characterId },
     { id := aiMsgId, sender := "character", type := "text", content := aiText,
       timestamp := t2, conversationId := userId ++ "_" ++ characterId }]
    hpend (by simp) (by simp [maxMessagesPerBatch]) horacle
  have hrp : runPipeline s userId characterId content userMsgId aiMsgId aiText t1 t2 t3 oracle
      = processDueConversation
          (processMessage
            (handleMessageSend s userId characterId content "text" userMsgId t1 false)
            { conversationId := userId ++ "_" ++ characterId, characterId := characterId,
              userMessage := { id := userMsgId, sender := "user", type := "text", content := content, timestamp := t1, conversationId := userId ++ "_" ++ characterId },
              userId := userId }
            t2 aiMsgId true (some aiText) true true).1
          (userId ++ "_" ++ characterId) t3 oracle := rfl
  rw [hrp]
  constructor
  · rw [h3.1, h2.1, h1.1]
    obtain ⟨k, rfl⟩ : ∃ k, limit = k + 2 := ⟨limit - 2, by omega⟩
    exact ⟨((s.cache (userId ++ "_" ++ characterId)).take k).reverse,
      cacheGetMessages_cons2 _ _ _ k⟩
  · have hdq : (clearMessagesOp
        (processDueConversation
          (processMessage
            (handleMessageSend s userId characterId content "text" userMsgId t1 false)
            { conversationId := userId ++ "_" ++ characterId, characterId := characterId,
              userMessage := { id := userMsgId, sender := "user", type := "text", content := content, timestamp := t1, conversationId := userId ++ "_" ++ characterId },
              userId := userId }
            t2 aiMsgId true (some aiText) true true).1
          (userId ++ "_" ++ characterId) t3 oracle)
        (userId ++ "_" ++ characterId)).durable (userId ++ "_" ++ characterId)
        = some (applySave (s.durable (userId ++ "_" ++ characterId)) userId characterId
            [{ id := userMsgId, sender := "user", type := "text", content := content,
               timestamp := t1, conversationId := userId ++ "_" ++ characterId },
             { id := aiMsgId, sender := "character", type := "text", content := aiText,
               timestamp := t2, conversationId := userId ++ "_" ++ characterId }] t3) := by
      show (processDueConversation _ (userId ++ "_" ++ characterId) t3 oracle).durable
        (userId ++ "_" ++ characterId) = _
      rw [h3.2, h2.2.1, h1.2.1, h2.2.2.2]
      rfl
    have hcache0 : (clearMessagesOp
        (processDueConversation
          (processMessage
            (handleMessageSend s userId characterId content "text" userMsgId t1 false)
            { conversationId := userId ++ "_" ++ characterId, characterId := characterId,
              userMessage := { id := userMsgId, sender := "user", type := "text", content := content, timestamp := t1, conversationId := userId ++ "_" ++ characterId },
              userId := userId }
            t2 aiMsgId true (some aiText) true true).1
          (userId ++ "_" ++ characterId) t3 oracle)
        (userId ++ "_" ++ characterId)).cache (userId ++ "_" ++ characterId) = [] := by
      simp [clearMessagesOp]
    have hnd2 :
        ([{ id := userMsgId, sender := "user", type := "text", content := content, timestamp := t1, conversationId := userId ++ "_" ++ characterId },
          { id := aiMsgId, sender := "character", type := "text", content := aiText, timestamp := t2, conversationId := userId ++ "_" ++ characterId }] :
          List Message).Nodup := by
      simp [Message.mk.injEq]
    have hdisj :
        ∀ m ∈ ([{ id := userMsgId, sender := "user", type := "text", content := content, timestamp := t1, conversationId := userId ++ "_" ++ characterId },
          { id := aiMsgId, sender := "character", type := "text", content := aiText, timestamp := t2, conversationId := userId ++ "_" ++ characterId }] :
          List Message),
        m ∉ docMessages (s.durable (userId ++ "_" ++ characterId)) := by
      intro m hm
      rcases List.mem_cons.mp hm with rfl | hm2
      · exact hu
      · rcases List.mem_singleton.mp hm2 with rfl
        exact ha
    have hmsgs : (applySave (s.durable (userId ++ "_" ++ characterId)) userId characterId
        [{ id := userMsgId, sender := "user", type := "text", content := content,
           timestamp := t1, conversationId := userId ++ "_" ++ characterId },
         { id := aiMsgId, sender := "character", type := "text", content := aiText,
           timestamp := t2, conversationId := userId ++ "_" ++ characterId }] t3).messages
        = docMessages (s.durable (userId ++ "_" ++ characterId)) ++
          [{ id := userMsgId, sender := "user", type := "text", content := content,
             timestamp := t1, conversationId := userId ++ "_" ++ characterId },
           { id := aiMsgId, sender := "character", type := "text", content := aiText,
             timestamp := t2, conversationId := userId ++ "_" ++ characterId }] := by
      cases hd : s.durable (userId ++ "_" ++ characterId) with
      | none =>
          rw [hd] at hdisj
          simp only [docMessages, applySave]
          rw [arrayUnion_append_of_disjoint _ [] (by simp) hnd2]
      | some d =>
          rw [hd] at hdisj
          simp only [docMessages, applySave]
          rw [arrayUnion_append_of_disjoint _ d.messages (by simpa [docMessages] using hdisj) hnd2]
    have hsorted2 : List.Sorted (fun x y : Message => x.timestamp ≤ y.timestamp)
        (docMessages (s.durable (userId ++ "_" ++ characterId)) ++
          [{ id := userMsgId, sender := "user", type := "text", content := content,
             timestamp := t1, conversationId := userId ++ "_" ++ characterId },
           { id := aiMsgId, sender := "character", type := "text", content := aiText,
             timestamp := t2, conversationId := userId ++ "_" ++ characterId }]) :=
      sorted_append_two _ _ _ hsorted hle ht
    have hsort : sortByTimestamp
        (docMessages (s.durable (userId ++ "_" ++ characterId)) ++
          [{ id := userMsgId, sender := "user", type := "text", content := content,
             timestamp := t1, conversationId := userId ++ "_" ++ characterId },
           { id := aiMsgId, sender := "character", type := "text", content := aiText,
             timestamp := t2, conversationId := userId ++ "_" ++ characterId }])
        = docMessages (s.durable (userId ++ "_" ++ characterId)) ++
          [{ id := userMsgId, sender := "user", type := "text", content := content,
             timestamp := t1, conversationId := userId ++ "_" ++ characterId },
           { id := aiMsgId, sender := "character", type := "text", content := aiText,
             timestamp := t2, conversationId := userId ++ "_" ++ characterId }] :=
      List.Sorted.insertionSort_eq hsorted2
    have hread := getMessagesF_miss_doc _ (userId ++ "_" ++ characterId) limit _ hcache0 hdq
    rw [hread]
    rw [hmsgs, hsort, sliceNeg_append_two _ _ _ limit hlim]
    exact ⟨_, rfl⟩

/-- Witness for C9_user_precedes_response on a fresh conversation. -/
theorem C9_witness :
    (∃ l, cacheGetMessages
        ((runPipeline initState "u" "c" "hi" "m1" "m2" "yo" 1 2 3
            (fun _ => true)).cache ("u" ++ "_" ++ "c")) 2
      = l ++ [pipelineUserMsg "u" "c" "hi" "m1" 1,
              pipelineAiMsg "u" "c" "yo" "m2" 2]) ∧
    (∃ l, (getMessagesF
        (clearMessagesOp
          (runPipeline initState "u" "c" "hi" "m1" "m2" "yo" 1 2 3
            (fun _ => true)) ("u" ++ "_" ++ "c"))
        ("u" ++ "_" ++ "c") 2).1
      = l ++ [pipelineUserMsg "u" "c" "hi" "m1" 1,
              pipelineAiMsg "u" "c" "yo" "m2" 2]) :=
  C9_user_precedes_response initState "u" "c" "hi" "m1" "m2" "yo" 1 2 3
    (fun _ => true) 2 (by decide) (by decide) rfl rfl (by decide)
    (by simp [initState, docMessages]) (by simp [initState, docMessages])
    (by decide) (by simp [initState, docMessages]) (by simp [initState, docMessages])

end Aigf
